import Mathlib

/-!
Verification of the test-isolation cache in
`tools/isolate/run_test_from_archive.py` (module `run_test_from_archive`).

The Python module keeps a local, LRU-ordered, content-addressed cache of
blobs (class `Cache`), materializes a manifest into a scratch directory
(`run_tha_test` together with `link_file`), runs the command of the manifest
and removes the scratch directory.

The embedding below models the cache directory as a finite association list
from file names to sizes, together with the parsed content of the state file
`state.json`.  Each Lean definition is a direct translation of the
corresponding Python function; the line numbers of the source are cited in
the doc comments.  Modeling conventions:

* machine file sizes are `Nat`;
* `os.listdir(cache_dir)` is the list of file names of the model;
* `os.stat(...).st_size` and `os.path.exists` are lookups in the model;
* deleting a file (`os.remove`) removes its entry (the source catches and
  logs `OSError` from a failed deletion; the model assumes deletion
  succeeds);
* `json.dump` of the state (method `Cache.save`) updates the parsed state
  content of the model (field `stateData`); the directory entry of
  `state.json` itself is not resized, since no cache operation reads it
  back within a run except through `json.load` at construction;
* exceptions are `Except`/`Option` results: `AssertionError` from the
  `assert` in `Cache.retrieve`, and `None` for the re-raised `OSError` in
  `Cache.trim`;
* the profiling counters (`files_added`, `files_removed`,
  `time_retrieving_files`) are diagnostics only and are not tracked.
-/

namespace RunTestFromArchive

/-- `Cache.STATE_FILE` (line 182): name of the persisted LRU state file. -/
def STATE_FILE : String := "state.json"

/-- Parsed content of `<cache_dir>/state.json` as seen by `json.load`:
the file may be absent, may fail to parse (`IOError`/`ValueError`),
or may hold a JSON list of blob-id strings. -/
inductive StateData where
  | absent
  | corrupt
  | good (st : List String)
deriving DecidableEq, Repr

/-- Model of the cache directory: the files it holds (name and size,
first entry wins on lookup, mirroring a directory where names are unique),
the capacity of the filesystem (to model `get_free_space`, line 156), and
the parsed content of `state.json`. -/
structure FS where
  files : List (String × Nat)
  capacity : Nat
  stateData : StateData
deriving DecidableEq, Repr

/-- Lookup of a file by name in an association list (models `os.stat`
returning the size, or `None` when the file is absent). -/
def lookupL : List (String × Nat) → String → Option Nat
  | [], _ => none
  | p :: rest, n => if p.1 = n then some p.2 else lookupL rest n

/-- Removal of every entry of a name (models `os.remove`: afterwards no
file of that name exists). -/
def eraseL : List (String × Nat) → String → List (String × Nat)
  | [], _ => []
  | p :: rest, m => if p.1 = m then eraseL rest m else p :: eraseL rest m

/-- `os.stat(path(name)).st_size` / `os.path.exists(path(name))`. -/
def FS.lookup (fs : FS) (name : String) : Option Nat :=
  lookupL fs.files name

/-- `os.listdir(cache_dir)` (line 268). -/
def FS.listdir (fs : FS) : List String :=
  fs.files.map Prod.fst

/-- `os.remove(path(name))` (line 256). -/
def FS.eraseFile (fs : FS) (name : String) : FS :=
  { fs with files := eraseL fs.files name }

/-- Writing a freshly downloaded blob into the cache directory
(`download_or_copy` at line 315 placing the file at `path(item)`). -/
def FS.setFile (fs : FS) (name : String) (sz : Nat) : FS :=
  { fs with files := (name, sz) :: eraseL fs.files name }

/-- `get_free_space(cache_dir)` (lines 156-164), modeled as the capacity of
the filesystem minus the bytes used by the files of the cache directory. -/
def FS.freeSpace (fs : FS) : Nat :=
  fs.capacity - (fs.files.map Prod.snd).sum

/-- `Cache.save` (lines 330-332): `json.dump` of the LRU ordering into
`state.json`.  The model records the newly serialized list. -/
def FS.save (fs : FS) (st : List String) : FS :=
  { fs with stateData := StateData.good st }

/-- The in-memory part of class `Cache` (lines 177-212): constructor
arguments and the LRU list `self.state` (index 0 is the oldest item). -/
structure Cache where
  cache_dir : String
  remote : String
  max_cache_size : Nat
  min_free_space : Nat
  max_items : Nat
  state : List String
deriving DecidableEq, Repr

/-- `Cache.path` (lines 326-328): `os.path.join(cache_dir, item)`. -/
def Cache.path (c : Cache) (item : String) : String :=
  c.cache_dir ++ "/" ++ item

/-- `Cache.remove_lru_file` (lines 249-258): pop `state[0]` and delete its
backing file.  The source catches `OSError` from `os.stat`/`os.remove` and
proceeds; the entry is popped in every case.  All call sites guard on a
non-empty state (an empty pop would raise `IndexError` in Python); the
empty case below is therefore unreachable from `trim`. -/
def remove_lru_file : List String → FS → List String × FS
  | [], fs => ([], fs)
  | f :: rest, fs => (rest, FS.eraseFile fs f)

/-- The orphan-absorption pass of `Cache.trim` (lines 268-274): every file
of the directory listing that is neither the state file nor already listed
is inserted at index 0 (the LRU end). -/
def absorb : List String → List String → List String
  | st, [] => st
  | st, n :: rest =>
      if n = STATE_FILE ∨ n ∈ st then absorb st rest
      else absorb (n :: st) rest

/-- The free-space loop of `Cache.trim` (lines 277-281): while
`min_free_space` is set, the state is non-empty and free space is below the
bound, evict the LRU entry. -/
def freeSpaceLoop (minFree : Nat) : List String → FS → List String × FS
  | [], fs => ([], fs)
  | f :: rest, fs =>
      if minFree ≠ 0 ∧ FS.freeSpace fs < minFree then
        freeSpaceLoop minFree rest (remove_lru_file (f :: rest) fs).2
      else (f :: rest, fs)

/-- The size computation of `Cache.trim` (lines 285-290):
`[os.stat(self.path(f)).st_size for f in self.state]`; a missing file
raises `OSError`, which `trim` re-raises (modeled as `none`). -/
def statAll (fs : FS) : List String → Option (List Nat)
  | [] => some []
  | f :: rest =>
      match FS.lookup fs f, statAll fs rest with
      | some sz, some sizes => some (sz :: sizes)
      | _, _ => none

/-- The size-budget loop of `Cache.trim` (lines 292-294): while the sizes
list is non-empty and its sum exceeds `max_cache_size`, evict the LRU entry
and pop the head of the sizes list. -/
def sizeLoop (maxSize : Nat) : List Nat → List String → FS → List String × FS
  | [], st, fs => (st, fs)
  | s :: sizes, st, fs =>
      if maxSize < (s :: sizes).sum then
        sizeLoop maxSize sizes (remove_lru_file st fs).1 (remove_lru_file st fs).2
      else (st, fs)

/-- The item-count loop of `Cache.trim` (lines 297-299): while the state
holds more than `max_items` entries, evict the LRU entry. -/
def itemLoop (maxItems : Nat) : List String → FS → List String × FS
  | [], fs => ([], fs)
  | f :: rest, fs =>
      if maxItems < (f :: rest).length then
        itemLoop maxItems rest (remove_lru_file (f :: rest) fs).2
      else (f :: rest, fs)

/-- `Cache.trim` (lines 260-301): drop entries whose backing file vanished,
absorb orphan files at the LRU end, then enforce the free-space, total-size
and item-count budgets by evicting from index 0, and finally `save`.
`none` models the re-raised `OSError` of lines 287-290. -/
def trim (c : Cache) (fs : FS) : Option (Cache × FS) :=
  let st1 := c.state.filter (fun f => (FS.lookup fs f).isSome)
  let st2 := absorb st1 (FS.listdir fs)
  let p3 := freeSpaceLoop c.min_free_space st2 fs
  let p4opt : Option (List String × FS) :=
    if c.max_cache_size ≠ 0 ∧ p3.1 ≠ [] then
      match statAll p3.2 p3.1 with
      | none => none
      | some sizes => some (sizeLoop c.max_cache_size sizes p3.1 p3.2)
    else some p3
  match p4opt with
  | none => none
  | some p4 =>
      let p5 := if c.max_items ≠ 0 ∧ p4.1 ≠ [] then itemLoop c.max_items p4.1 p4.2 else p4
      some ({ c with state := p5.1 }, FS.save p5.2 p5.1)

/-- `json.load` of the state file in `Cache.__init__` (lines 216-222): a
missing file leaves the state empty; `IOError`/`ValueError` from a broken
file is caught and logged, leaving the state empty as well. -/
def loadState : StateData → List String
  | StateData.good st => st
  | _ => []

/-- `Cache.__init__` (lines 184-224): record the configuration, load the
persisted LRU state (broken state files degrade to an empty state) and run
`trim` once. -/
def cacheInit (cache_dir remote : String)
    (max_cache_size min_free_space max_items : Nat) (fs : FS) :
    Option (Cache × FS) :=
  let c : Cache :=
    { cache_dir := cache_dir, remote := remote,
      max_cache_size := max_cache_size, min_free_space := min_free_space,
      max_items := max_items, state := loadState fs.stateData }
  trim c fs

/-- The `AssertionError` raised by the `assert` of `Cache.retrieve`
(line 305). -/
inductive PyErr where
  | assertionError
deriving DecidableEq, Repr

/-- Result of a normally returning `Cache.retrieve` call: the returned
boolean, the cache and directory afterwards, and whether
`download_or_copy` was invoked. -/
structure RetOut where
  ret : Bool
  cache : Cache
  fs : FS
  fetched : Bool
deriving DecidableEq, Repr

/-- `Cache.retrieve` (lines 303-324).  `assert not '/' in item`; on a hit
(`state.index` succeeds) pop the entry at its index and append it at the
MRU end, returning `False`; on a miss run `download_or_copy` (the `fetch`
argument models its outcome: `some sz` places a file of that size, `none`
leaves the target as it was) and append the item when the target file now
exists, returning `True`.  The `finally` clause persists the state through
`save` on every normal path. -/
def retrieve (c : Cache) (fs : FS) (item : String) (fetch : Option Nat) :
    Except PyErr RetOut :=
  if '/' ∈ item.data then Except.error PyErr.assertionError
  else if item ∈ c.state then
    let st := c.state.erase item ++ [item]
    Except.ok { ret := false, cache := { c with state := st },
                fs := FS.save fs st, fetched := false }
  else
    let fs1 := match fetch with
      | some sz => FS.setFile fs item sz
      | none => fs
    if (FS.lookup fs1 item).isSome then
      let st := c.state ++ [item]
      Except.ok { ret := true, cache := { c with state := st },
                  fs := FS.save fs1 st, fetched := true }
    else
      Except.ok { ret := true, cache := c,
                  fs := FS.save fs1 c.state, fetched := true }

/-- The three mapping actions `HARDLINK, SYMLINK, COPY = range(4)[1:]`
(line 27).  `link_file` validates the action first (line 48) and raises
`ValueError` on any other integer; the enumeration makes that branch
unreachable, as at every call site. -/
inductive LinkAction where
  | hardlink
  | symlink
  | copy
deriving DecidableEq, Repr

/-- Which filesystem operation `link_file` ended up performing. -/
inductive LinkMethod where
  | hardlinked
  | symlinked
  | copied
deriving DecidableEq, Repr

/-- The two `MappingError` raises of `link_file` (lines 50-55): a missing
source file, or an already existing destination. -/
inductive MappingErr where
  | sourceMissing
  | destExists
deriving DecidableEq, Repr

/-- Outcome of one `link_file` call: the filesystem afterwards, the raised
`MappingError` if any, and the operation performed when none was raised. -/
structure LinkResult where
  fs : FS
  err : Option MappingErr
  method : Option LinkMethod
deriving DecidableEq, Repr

/-- `link_file(outfile, infile, action)` (lines 45-70), with the scratch
and cache files modeled in one directory map.  After validating the action
it raises `MappingError` when `infile` is not a regular file, then when
`outfile` already is one.  `COPY` copies; `SYMLINK` symlinks except on
Windows; `HARDLINK` (and `SYMLINK` on Windows) tries `os_link` and falls
back to a copy when it raises `OSError` (the `hardlinkOk` argument models
whether the hardlink succeeds, e.g. same filesystem). -/
def link_file (fs : FS) (outfile infile : String) (action : LinkAction)
    (win : Bool) (hardlinkOk : Bool) : LinkResult :=
  if (FS.lookup fs infile).isNone then
    { fs := fs, err := some MappingErr.sourceMissing, method := none }
  else if (FS.lookup fs outfile).isSome then
    { fs := fs, err := some MappingErr.destExists, method := none }
  else
    let sz := (FS.lookup fs infile).getD 0
    match action with
    | LinkAction.copy =>
        { fs := FS.setFile fs outfile sz, err := none,
          method := some LinkMethod.copied }
    | LinkAction.symlink =>
        if win = false then
          { fs := FS.setFile fs outfile sz, err := none,
            method := some LinkMethod.symlinked }
        else if hardlinkOk then
          { fs := FS.setFile fs outfile sz, err := none,
            method := some LinkMethod.hardlinked }
        else
          { fs := FS.setFile fs outfile sz, err := none,
            method := some LinkMethod.copied }
    | LinkAction.hardlink =>
        if hardlinkOk then
          { fs := FS.setFile fs outfile sz, err := none,
            method := some LinkMethod.hardlinked }
        else
          { fs := FS.setFile fs outfile sz, err := none,
            method := some LinkMethod.copied }

/-- The action `run_tha_test` passes to `link_file` for a Regular manifest
entry (line 385): always `HARDLINK`. -/
def materializeAction : LinkAction := LinkAction.hardlink

/-- The `link_file(outfile, cache.path(infile), HARDLINK)` call of the
materialization loop of `run_tha_test` (line 385). -/
def materialize_file (fs : FS) (outfile infile : String)
    (win : Bool) (hardlinkOk : Bool) : LinkResult :=
  link_file fs outfile infile materializeAction win hardlinkOk

/-- Modelled from the spec (section 4.2, materialization step for Regular
entries), stated in the words of the spec for comparison with the source:
link "via hardlink when same filesystem, else symlink, else byte copy
(first one that succeeds wins; copy is the universal fallback)". -/
def specLinkChain (hardlinkOk symlinkOk : Bool) : LinkMethod :=
  if hardlinkOk then LinkMethod.hardlinked
  else if symlinkOk then LinkMethod.symlinked
  else LinkMethod.copied

/-- Presence of the two required top-level manifest keys checked by
`run_tha_test` (lines 367-372); the remaining manifest content is
irrelevant to the scratch-directory lifecycle. -/
structure Manifest where
  hasFiles : Bool
  hasCommand : Bool
deriving DecidableEq, Repr

/-- Outcome of `subprocess.call` (line 407): an exit code, or an `OSError`
raised by the spawn (lines 408-410, re-raised). -/
inductive SpawnOutcome where
  | exits (code : Int)
  | raisesOSError
deriving DecidableEq, Repr

/-- Environment of one `run_tha_test` call: whether the `GetFiles`
materialization loop (lines 375-393) completes without an exception
(`MappingError` from `link_file`, `ValueError` for an unexpected entry,
or an `OSError`), and what the spawn does. -/
structure RunEnv where
  materializeOk : Bool
  spawn : SpawnOutcome
deriving DecidableEq, Repr

/-- Platform data of `rmtree` (lines 103-117): whether the host is win32,
and how many leading removal attempts fail with `WindowsError` because a
child process still holds a handle. -/
structure Platform where
  win : Bool
  rmFailures : Nat
deriving DecidableEq, Repr

/-- Exceptions that propagate out of the `try` of `run_tha_test`. -/
inductive RunErr where
  | materializeError
  | spawnOSError
deriving DecidableEq, Repr

/-- `rmtree(root)` (lines 103-117): on win32, `shutil.rmtree` is retried
up to 3 times with increasing sleeps; elsewhere it runs once.  Returns
whether the tree was removed and how many attempts were made. -/
def rmtree (p : Platform) : Bool × Nat :=
  if p.win then
    if p.rmFailures < 3 then (true, p.rmFailures + 1) else (false, 3)
  else (true, 1)

/-- Observable outcome of `run_tha_test`: the returned exit code or the
propagated exception, whether the scratch directory still exists, whether
`subprocess.call` was invoked, and how many `shutil.rmtree` attempts ran. -/
structure RunOutcome where
  result : Except RunErr Int
  scratchExists : Bool
  spawned : Bool
  rmAttempts : Nat
deriving Repr

/-- `run_tha_test` (lines 358-412).  The scratch directory `outdir` is
created by `make_temp_dir` (line 365) before the manifest keys are
checked; the early `return 1` paths for a missing `files` or `command` key
(lines 367-372) leave the `with` block without entering the `try` of line
374, so `rmtree(outdir)` in its `finally` (line 412) does not run there.
Inside the `try`, any materialization exception and any spawn outcome
reach the `finally`, which removes the scratch directory. -/
def run_tha_test (m : Manifest) (env : RunEnv) (p : Platform) : RunOutcome :=
  if m.hasFiles = false then
    { result := Except.ok 1, scratchExists := true, spawned := false,
      rmAttempts := 0 }
  else if m.hasCommand = false then
    { result := Except.ok 1, scratchExists := true, spawned := false,
      rmAttempts := 0 }
  else
    let body : Except RunErr Int × Bool :=
      if env.materializeOk = false then (Except.error RunErr.materializeError, false)
      else
        match env.spawn with
        | SpawnOutcome.exits code => (Except.ok code, true)
        | SpawnOutcome.raisesOSError => (Except.error RunErr.spawnOSError, true)
    let rm := rmtree p
    { result := body.1, scratchExists := !rm.1, spawned := body.2,
      rmAttempts := rm.2 }

/-- The command-line options of `main` (lines 415-462) that matter here:
`--no-run` (line 420, help text: Skip the run part). -/
structure Options where
  noRun : Bool
deriving DecidableEq, Repr

/-- The tail of `main` (lines 478-487): after parsing, `run_tha_test` is
invoked with the manifest and cache settings.  `options.no_run` is parsed
at line 420 but never read anywhere in the module, so it does not appear
on the right-hand side. -/
def mainRun (opts : Options) (m : Manifest) (env : RunEnv) (p : Platform) :
    RunOutcome :=
  run_tha_test m env p

/-! Helper lemmas about the directory model. -/

/-- Size under which a blob enters the accounting of `trim` (0 for a
missing file). -/
def blobSize (fs : FS) (n : String) : Nat :=
  (FS.lookup fs n).getD 0

/-- Total size of the listed blobs, as summed by the size-budget loop. -/
def sumSizes (fs : FS) (l : List String) : Nat :=
  (l.map (blobSize fs)).sum

theorem sumSizes_nil (fs : FS) : sumSizes fs [] = 0 := rfl

theorem sumSizes_cons (fs : FS) (a : String) (l : List String) :
    sumSizes fs (a :: l) = blobSize fs a + sumSizes fs l := by
  simp [sumSizes]

theorem sumSizes_save (fs : FS) (st : List String) (l : List String) :
    sumSizes (FS.save fs st) l = sumSizes fs l := rfl

theorem lookupL_eraseL (l : List (String × Nat)) (m n : String) :
    lookupL (eraseL l m) n = if n = m then none else lookupL l n := by
  induction l with
  | nil => simp [eraseL, lookupL]
  | cons p rest ih =>
      by_cases h1 : p.1 = m
      · rw [show eraseL (p :: rest) m = eraseL rest m from by simp [eraseL, h1], ih]
        by_cases h2 : n = m
        · rw [if_pos h2, if_pos h2]
        · rw [if_neg h2, if_neg h2]
          have hpn : ¬ p.1 = n := fun hc => h2 (by rw [← hc, h1])
          simp [lookupL, hpn]
      · rw [show eraseL (p :: rest) m = p :: eraseL rest m from by simp [eraseL, h1]]
        by_cases h3 : p.1 = n
        · have hnm : ¬ n = m := fun hc => h1 (by rw [h3, hc])
          simp [lookupL, h3, hnm]
        · simp only [lookupL, if_neg h3]
          rw [ih]

theorem lookup_eraseFile (fs : FS) (m n : String) :
    FS.lookup (FS.eraseFile fs m) n = if n = m then none else FS.lookup fs n :=
  lookupL_eraseL fs.files m n

theorem lookup_save (fs : FS) (st : List String) (n : String) :
    FS.lookup (FS.save fs st) n = FS.lookup fs n := rfl

theorem blobSize_eraseFile_le (fs : FS) (m n : String) :
    blobSize (FS.eraseFile fs m) n ≤ blobSize fs n := by
  unfold blobSize
  rw [lookup_eraseFile]
  split
  · simp
  · exact Nat.le_refl _

theorem sumSizes_eraseFile_le (fs : FS) (m : String) (l : List String) :
    sumSizes (FS.eraseFile fs m) l ≤ sumSizes fs l := by
  induction l with
  | nil => simp [sumSizes_nil]
  | cons a t ih =>
      rw [sumSizes_cons, sumSizes_cons]
      exact Nat.add_le_add (blobSize_eraseFile_le fs m a) ih

theorem lookupL_isSome_of_mem (l : List (String × Nat)) (n : String)
    (h : n ∈ l.map Prod.fst) : (lookupL l n).isSome := by
  induction l with
  | nil => simp at h
  | cons p rest ih =>
      rw [List.map_cons, List.mem_cons] at h
      by_cases h1 : p.1 = n
      · simp [lookupL, h1]
      · rcases h with h | h
        · exact absurd h.symm h1
        · simp only [lookupL, if_neg h1]
          exact ih h

/-! Helper lemmas about the orphan-absorption pass. -/

theorem absorb_nodup : ∀ (names st : List String), st.Nodup → (absorb st names).Nodup := by
  intro names
  induction names with
  | nil => intro st h; exact h
  | cons n rest ih =>
      intro st h
      simp only [absorb]
      split
      · exact ih st h
      · rename_i hguard
        push_neg at hguard
        exact ih (n :: st) (List.nodup_cons.mpr ⟨hguard.2, h⟩)

theorem mem_absorb : ∀ (names st : List String) (x : String),
    x ∈ absorb st names → x ∈ st ∨ (x ∈ names ∧ x ≠ STATE_FILE) := by
  intro names
  induction names with
  | nil => intro st x h; exact Or.inl h
  | cons n rest ih =>
      intro st x h
      simp only [absorb] at h
      split at h
      · rcases ih st x h with h1 | ⟨h2, h3⟩
        · exact Or.inl h1
        · exact Or.inr ⟨List.mem_cons_of_mem _ h2, h3⟩
      · rename_i hguard
        push_neg at hguard
        rcases ih (n :: st) x h with h1 | ⟨h2, h3⟩
        · rcases List.mem_cons.mp h1 with h4 | h4
          · refine Or.inr ⟨by rw [h4]; exact List.mem_cons_self _ _, ?_⟩
            rw [h4]
            exact hguard.1
          · exact Or.inl h4
        · exact Or.inr ⟨List.mem_cons_of_mem _ h2, h3⟩

/-! Helper lemmas about the three eviction loops. -/

theorem remove_lru_file_suffix (st : List String) (fs : FS) :
    (remove_lru_file st fs).1 <:+ st := by
  cases st with
  | nil => exact List.suffix_refl _
  | cons f rest => exact List.suffix_cons f rest

theorem freeSpaceLoop_suffix (m : Nat) :
    ∀ (st : List String) (fs : FS), (freeSpaceLoop m st fs).1 <:+ st := by
  intro st
  induction st with
  | nil => intro fs; exact List.suffix_refl _
  | cons f rest ih =>
      intro fs
      simp only [freeSpaceLoop]
      split
      · exact (ih _).trans (List.suffix_cons f rest)
      · exact List.suffix_refl _

theorem sizeLoop_suffix (m : Nat) :
    ∀ (sizes : List Nat) (st : List String) (fs : FS),
      (sizeLoop m sizes st fs).1 <:+ st := by
  intro sizes
  induction sizes with
  | nil => intro st fs; exact List.suffix_refl _
  | cons s sizes ih =>
      intro st fs
      simp only [sizeLoop]
      split
      · exact (ih _ _).trans (remove_lru_file_suffix st fs)
      · exact List.suffix_refl _

theorem itemLoop_suffix (m : Nat) :
    ∀ (st : List String) (fs : FS), (itemLoop m st fs).1 <:+ st := by
  intro st
  induction st with
  | nil => intro fs; exact List.suffix_refl _
  | cons f rest ih =>
      intro fs
      simp only [itemLoop]
      split
      · exact (ih _).trans (List.suffix_cons f rest)
      · exact List.suffix_refl _

theorem itemLoop_length (m : Nat) :
    ∀ (st : List String) (fs : FS), (itemLoop m st fs).1.length ≤ m := by
  intro st
  induction st with
  | nil => intro fs; simp [itemLoop]
  | cons f rest ih =>
      intro fs
      simp only [itemLoop]
      split
      · exact ih _
      · rename_i hguard
        exact Nat.le_of_not_lt hguard

theorem itemLoop_sum_le (m : Nat) :
    ∀ (st : List String) (fs : FS),
      sumSizes (itemLoop m st fs).2 (itemLoop m st fs).1 ≤ sumSizes fs st := by
  intro st
  induction st with
  | nil => intro fs; simp [itemLoop]
  | cons f rest ih =>
      intro fs
      simp only [itemLoop]
      split
      · calc sumSizes (itemLoop m rest (FS.eraseFile fs f)).2
              (itemLoop m rest (FS.eraseFile fs f)).1
            ≤ sumSizes (FS.eraseFile fs f) rest := ih _
          _ ≤ sumSizes fs rest := sumSizes_eraseFile_le fs f rest
          _ ≤ sumSizes fs (f :: rest) := by rw [sumSizes_cons]; omega
      · exact Nat.le_refl _

theorem sumSizes_le_of_forall2 (fs : FS) {st : List String} {sizes : List Nat}
    (h : List.Forall₂ (fun n s => blobSize fs n ≤ s) st sizes) :
    sumSizes fs st ≤ sizes.sum := by
  induction h with
  | nil => simp [sumSizes_nil]
  | cons hh _ ih =>
      rw [sumSizes_cons, List.sum_cons]
      exact Nat.add_le_add hh ih

theorem sizeLoop_le (m : Nat) :
    ∀ (sizes : List Nat) (st : List String) (fs : FS),
      List.Forall₂ (fun n s => blobSize fs n ≤ s) st sizes →
      sumSizes (sizeLoop m sizes st fs).2 (sizeLoop m sizes st fs).1 ≤ m := by
  intro sizes
  induction sizes with
  | nil =>
      intro st fs h
      cases h
      simp [sizeLoop, sumSizes_nil]
  | cons s sizes ih =>
      intro st fs h
      cases h with
      | cons hh ht =>
          rename_i a t
          simp only [sizeLoop]
          split
          · refine ih t (FS.eraseFile fs a) (ht.imp ?_)
            intro n sz hns
            exact (blobSize_eraseFile_le fs a n).trans hns
          · rename_i hguard
            have h1 : sumSizes fs (a :: t) ≤ (s :: sizes).sum :=
              sumSizes_le_of_forall2 fs (List.Forall₂.cons hh ht)
            exact h1.trans (Nat.le_of_not_lt hguard)

theorem statAll_forall2 (fs : FS) :
    ∀ {st : List String} {sizes : List Nat}, statAll fs st = some sizes →
      List.Forall₂ (fun n s => FS.lookup fs n = some s) st sizes := by
  intro st
  induction st with
  | nil =>
      intro sizes h
      simp only [statAll, Option.some.injEq] at h
      subst h
      exact List.Forall₂.nil
  | cons f rest ih =>
      intro sizes h
      simp only [statAll] at h
      cases hl : FS.lookup fs f with
      | none => rw [hl] at h; simp at h
      | some sz =>
          cases hs : statAll fs rest with
          | none => rw [hl, hs] at h; simp at h
          | some rsizes =>
              rw [hl, hs] at h
              simp only [Option.some.injEq] at h
              subst h
              exact List.Forall₂.cons hl (ih hs)

theorem statAll_isSome (fs : FS) :
    ∀ (st : List String), (∀ n ∈ st, (FS.lookup fs n).isSome) →
      (statAll fs st).isSome := by
  intro st
  induction st with
  | nil => intro; simp [statAll]
  | cons f rest ih =>
      intro h
      have h1 : (FS.lookup fs f).isSome := h f (List.mem_cons_self _ _)
      obtain ⟨sz, hsz⟩ := Option.isSome_iff_exists.mp h1
      have h2 := ih (fun n hn => h n (List.mem_cons_of_mem _ hn))
      obtain ⟨sizes, hsizes⟩ := Option.isSome_iff_exists.mp h2
      simp [statAll, hsz, hsizes]

theorem freeSpaceLoop_lookup (m : Nat) :
    ∀ (st : List String) (fs : FS), st.Nodup →
      (∀ n ∈ st, (FS.lookup fs n).isSome) →
      ∀ n ∈ (freeSpaceLoop m st fs).1,
        (FS.lookup (freeSpaceLoop m st fs).2 n).isSome := by
  intro st
  induction st with
  | nil => intro fs _ _ n hn; simp [freeSpaceLoop] at hn
  | cons f rest ih =>
      intro fs hnd hall n hn
      simp only [freeSpaceLoop] at hn ⊢
      split at hn
      · rename_i hguard
        rw [if_pos hguard]
        refine ih (FS.eraseFile fs f) (List.nodup_cons.mp hnd).2 ?_ n hn
        intro x hx
        have hxf : x ≠ f := by
          intro hcontra
          exact (List.nodup_cons.mp hnd).1 (hcontra ▸ hx)
        rw [lookup_eraseFile, if_neg hxf]
        exact hall x (List.mem_cons_of_mem _ hx)
      · rename_i hguard
        rw [if_neg hguard]
        exact hall n hn

/-- Combined description of a normally returning `trim`: the final state
is a suffix of the reconciled list (every eviction popped index 0), the
item budget and the size budget hold when set, and the state file records
the final state. -/
theorem trim_shape (c : Cache) (fs : FS) (c' : Cache) (fs' : FS)
    (h : trim c fs = some (c', fs')) :
    c'.state <:+
      absorb (c.state.filter (fun f => (FS.lookup fs f).isSome)) (FS.listdir fs) ∧
    (c.max_items ≠ 0 → c'.state.length ≤ c.max_items) ∧
    (c.max_cache_size ≠ 0 → sumSizes fs' c'.state ≤ c.max_cache_size) ∧
    fs'.stateData = StateData.good c'.state := by
  simp only [trim] at h
  set st2 := absorb (c.state.filter (fun f => (FS.lookup fs f).isSome))
    (FS.listdir fs) with hst2
  set p3 := freeSpaceLoop c.min_free_space st2 fs with hp3
  split at h
  · exact absurd h (by simp)
  · rename_i p4 heq
    set p5 := if c.max_items ≠ 0 ∧ p4.1 ≠ [] then itemLoop c.max_items p4.1 p4.2
      else p4 with hp5
    rw [Option.some.injEq, Prod.mk.injEq] at h
    obtain ⟨hc', hfs'⟩ := h
    subst hc'
    subst hfs'
    have hsuf54 : p5.1 <:+ p4.1 := by
      rw [hp5]
      split
      · exact itemLoop_suffix _ _ _
      · exact List.suffix_refl _
    have hsuf43 : p4.1 <:+ p3.1 ∧
        (c.max_cache_size ≠ 0 → sumSizes p4.2 p4.1 ≤ c.max_cache_size) := by
      split at heq
      · rename_i hguard
        cases hstat : statAll p3.2 p3.1 with
        | none => rw [hstat] at heq; exact absurd heq (by simp)
        | some sizes =>
            rw [hstat] at heq
            rw [Option.some.injEq] at heq
            subst heq
            constructor
            · exact sizeLoop_suffix _ _ _ _
            · intro _
              refine sizeLoop_le c.max_cache_size sizes p3.1 p3.2 ?_
              refine (statAll_forall2 p3.2 hstat).imp ?_
              intro n s hns
              simp [blobSize, hns]
      · rename_i hguard
        rw [Option.some.injEq] at heq
        subst heq
        constructor
        · exact List.suffix_refl _
        · intro hms
          have h31 : p3.1 = [] := by
            by_contra hne
            exact hguard ⟨hms, hne⟩
          rw [h31]
          simp [sumSizes_nil]
    refine ⟨?_, ?_, ?_, rfl⟩
    · exact (hsuf54.trans hsuf43.1).trans (freeSpaceLoop_suffix _ _ _)
    · intro hmi
      rw [hp5]
      split
      · exact itemLoop_length _ _ _
      · rename_i hguard
        have h41 : p4.1 = [] := by
          by_contra hne
          exact hguard ⟨hmi, hne⟩
        simp [h41]
    · intro hms
      show sumSizes (FS.save p5.2 p5.1) p5.1 ≤ c.max_cache_size
      rw [sumSizes_save]
      have h4 := hsuf43.2 hms
      rw [hp5]
      split
      · exact (itemLoop_sum_le _ _ _).trans h4
      · exact h4

/-- `trim` cannot raise when the loaded state is empty: after the lost-file
and orphan passes every listed entry has a backing file, the free-space
loop removes exactly the files it pops, and the state stays duplicate-free,
so the size computation of lines 285-290 never sees a missing file. -/
theorem trim_some_of_nil (c : Cache) (fs : FS) (h : c.state = []) :
    (trim c fs).isSome := by
  simp only [trim]
  set st2 := absorb (c.state.filter (fun f => (FS.lookup fs f).isSome))
    (FS.listdir fs) with hst2
  have hst2nd : st2.Nodup := by
    rw [hst2, h]
    exact absorb_nodup _ _ (by simp)
  have hst2all : ∀ n ∈ st2, (FS.lookup fs n).isSome := by
    intro n hn
    rw [hst2, h] at hn
    rcases mem_absorb _ _ _ hn with h1 | ⟨h2, _⟩
    · simp at h1
    · exact lookupL_isSome_of_mem fs.files n h2
  set p3 := freeSpaceLoop c.min_free_space st2 fs with hp3
  have hall3 : ∀ n ∈ p3.1, (FS.lookup p3.2 n).isSome :=
    freeSpaceLoop_lookup c.min_free_space st2 fs hst2nd hst2all
  split
  · rename_i heq
    split at heq
    · cases hstat : statAll p3.2 p3.1 with
      | none =>
          have := statAll_isSome p3.2 p3.1 hall3
          rw [hstat] at this
          simp at this
      | some sizes => rw [hstat] at heq; exact absurd heq (by simp)
    · exact absurd heq (by simp)
  · simp

/-- The final filesystem of a normally returning `trim` records the final
state list in `state.json` (the closing `save` of line 301). -/
theorem trim_stateData (c : Cache) (fs : FS) (c' : Cache) (fs' : FS)
    (h : trim c fs = some (c', fs')) :
    fs'.stateData = StateData.good c'.state :=
  (trim_shape c fs c' fs' h).2.2.2

/-- The final state of a normally returning `trim` is a suffix of the
reconciled list: evictions only pop index 0. -/
theorem trim_suffix (c : Cache) (fs : FS) (c' : Cache) (fs' : FS)
    (h : trim c fs = some (c', fs')) :
    c'.state <:+
      absorb (c.state.filter (fun f => (FS.lookup fs f).isSome)) (FS.listdir fs) :=
  (trim_shape c fs c' fs' h).1

/-- Reduction of `Cache.retrieve` on a cache hit. -/
theorem retrieve_hit_eq (c : Cache) (fs : FS) (item : String)
    (fetch : Option Nat) (h1 : '/' ∉ item.data) (h2 : item ∈ c.state) :
    retrieve c fs item fetch =
      Except.ok { ret := false,
                  cache := { c with state := c.state.erase item ++ [item] },
                  fs := FS.save fs (c.state.erase item ++ [item]),
                  fetched := false } := by
  simp only [retrieve]
  rw [if_neg h1, if_pos h2]

/-! The claims. -/

/-- C1: For every blob id already present in the resident list (and
satisfying the `assert` of line 305, i.e. containing no slash),
`Cache.retrieve` moves the id from its current position to the MRU end,
invokes no `download_or_copy`, persists the state through `save`, and
returns `False`; a second call for the same id behaves the same way and
leaves the id at the MRU position both times. -/
theorem retrieve_hit_moves_to_mru (c : Cache) (fs : FS) (item : String)
    (fetch : Option Nat) (hslash : '/' ∉ item.data) (hmem : item ∈ c.state) :
    ∃ out : RetOut, retrieve c fs item fetch = Except.ok out ∧
      out.ret = false ∧ out.fetched = false ∧
      out.cache.state = c.state.erase item ++ [item] ∧
      out.fs = FS.save fs (c.state.erase item ++ [item]) ∧
      out.cache.state.getLast? = some item ∧
      ∀ (fs2 : FS) (fetch2 : Option Nat), ∃ out2 : RetOut,
        retrieve out.cache fs2 item fetch2 = Except.ok out2 ∧
        out2.ret = false ∧ out2.fetched = false ∧
        out2.cache.state.getLast? = some item := by
  refine ⟨_, retrieve_hit_eq c fs item fetch hslash hmem, rfl, rfl, rfl, rfl,
    List.getLast?_concat _, ?_⟩
  intro fs2 fetch2
  have hmem2 : item ∈ c.state.erase item ++ [item] :=
    List.mem_append_right _ (List.mem_singleton.mpr rfl)
  exact ⟨_, retrieve_hit_eq _ fs2 item fetch2 hslash hmem2, rfl, rfl,
    List.getLast?_concat _⟩

/-- C2: After a normally returning `Cache.trim`, the resident list has at
most `max_items` entries when that bound is set, the total size of the
resident blobs is at most `max_cache_size` when that bound is set, and
every eviction popped index 0: the final list is a suffix of the
reconciled (lost-files-dropped, orphans-absorbed) list, so entries evicted
for one budget count toward the others. -/
theorem trim_enforces_budgets (c : Cache) (fs : FS) (c' : Cache) (fs' : FS)
    (h : trim c fs = some (c', fs')) :
    (c.max_items ≠ 0 → c'.state.length ≤ c.max_items) ∧
    (c.max_cache_size ≠ 0 → sumSizes fs' c'.state ≤ c.max_cache_size) ∧
    c'.state <:+
      absorb (c.state.filter (fun f => (FS.lookup fs f).isSome)) (FS.listdir fs) := by
  obtain ⟨h1, h2, h3, _⟩ := trim_shape c fs c' fs' h
  exact ⟨h2, h3, h1⟩

/-- C8: The no-duplicates property of the resident list is preserved by
`Cache.retrieve` (hit: pop then append; miss: append of an id that was not
present) and by `Cache.trim` (filtering, absorption of names not already
present, and popping from the front). -/
theorem cache_ops_preserve_nodup (c : Cache) (fs : FS) (h : c.state.Nodup) :
    (∀ (item : String) (fetch : Option Nat) (out : RetOut),
        retrieve c fs item fetch = Except.ok out → out.cache.state.Nodup) ∧
    (∀ (c' : Cache) (fs' : FS), trim c fs = some (c', fs') → c'.state.Nodup) := by
  constructor
  · intro item fetch out hout
    simp only [retrieve] at hout
    split at hout
    · exact absurd hout (by simp)
    · split at hout
      · rename_i hmem
        rw [Except.ok.injEq] at hout
        subst hout
        refine List.nodup_append.mpr ⟨h.erase item, List.nodup_singleton _, ?_⟩
        intro a ha hb
        rw [List.mem_singleton] at hb
        subst hb
        exact (h.mem_erase_iff.mp ha).1 rfl
      · rename_i hmem
        split at hout
        · rw [Except.ok.injEq] at hout
          subst hout
          refine List.nodup_append.mpr ⟨h, List.nodup_singleton _, ?_⟩
          intro a ha hb
          rw [List.mem_singleton] at hb
          subst hb
          exact hmem ha
        · rw [Except.ok.injEq] at hout
          subst hout
          exact h
  · intro c' fs' htrim
    have hsuf := trim_suffix c fs c' fs' htrim
    have hnd2 : (absorb (c.state.filter (fun f => (FS.lookup fs f).isSome))
        (FS.listdir fs)).Nodup :=
      absorb_nodup _ _ (h.filter _)
    exact hnd2.sublist hsuf.sublist

/-- C9: `Cache.retrieve` raises `AssertionError` exactly when the item
contains a slash; the `assert` of line 305 precedes the `try` block, so on
that path no state, remote or disk access happens and no `save` runs (the
error carries no successor state). -/
theorem retrieve_asserts_no_slash (c : Cache) (fs : FS) (item : String)
    (fetch : Option Nat) :
    (retrieve c fs item fetch = Except.error PyErr.assertionError) ↔
      '/' ∈ item.data := by
  constructor
  · intro h
    by_contra hn
    simp only [retrieve] at h
    rw [if_neg hn] at h
    split at h
    · exact absurd h (by simp)
    · split at h
      · exact absurd h (by simp)
      · exact absurd h (by simp)
  · intro h
    simp [retrieve, h]

/-- C10 (amended): the orphan-absorption pass of `trim` skips the state
file, and `retrieve` of any id other than the state file never inserts it,
so the resident list never acquires the name of the state file through
those operations; `retrieve` called with the state-file name itself does
insert it (see the counterexample). -/
theorem statefile_never_resident (c : Cache) (fs : FS)
    (h : STATE_FILE ∉ c.state) :
    (∀ (c' : Cache) (fs' : FS), trim c fs = some (c', fs') →
        STATE_FILE ∉ c'.state) ∧
    (∀ (item : String) (fetch : Option Nat) (out : RetOut),
        item ≠ STATE_FILE → retrieve c fs item fetch = Except.ok out →
        STATE_FILE ∉ out.cache.state) := by
  constructor
  · intro c' fs' htrim hmem
    have hsuf := trim_suffix c fs c' fs' htrim
    have hmem2 := hsuf.sublist.subset hmem
    rcases mem_absorb _ _ _ hmem2 with h1 | ⟨_, h3⟩
    · exact h (List.mem_of_mem_filter h1)
    · exact h3 rfl
  · intro item fetch out hne hout
    simp only [retrieve] at hout
    split at hout
    · exact absurd hout (by simp)
    · split at hout
      · rw [Except.ok.injEq] at hout
        subst hout
        intro hmem
        rcases List.mem_append.mp hmem with h1 | h1
        · exact h ((c.state.erase_sublist item).subset h1)
        · rw [List.mem_singleton] at h1
          exact hne h1.symm
      · split at hout
        · rw [Except.ok.injEq] at hout
          subst hout
          intro hmem
          rcases List.mem_append.mp hmem with h1 | h1
          · exact h h1
          · rw [List.mem_singleton] at h1
            exact hne h1.symm
        · rw [Except.ok.injEq] at hout
          subst hout
          exact h

/-- C10 counterexample: on a cache with an empty resident list,
`retrieve("state.json")` returns normally and inserts the state-file name
into the resident list — the target path already exists (it is the state
file itself), so the `os.path.exists` check of line 316 passes even though
the fetch placed nothing. -/
theorem retrieve_statefile_inserts :
    ∃ out : RetOut,
      retrieve { cache_dir := "cache", remote := "remote", max_cache_size := 0,
                 min_free_space := 0, max_items := 0, state := [] }
        { files := [("state.json", 1)], capacity := 10,
          stateData := StateData.good [] } STATE_FILE none = Except.ok out ∧
      STATE_FILE ∈ out.cache.state := by
  refine ⟨_, rfl, ?_⟩
  decide

/-- C3 (amended): for every manifest that contains both the `files` and
the `command` key, and every run outcome reaching the `try` block — clean
exit, non-zero exit, spawn `OSError`, or a materialization exception — the
`finally` of line 412 runs `rmtree`: at least one removal attempt is
always made; off Windows the scratch directory is gone after the return;
on Windows at most 3 attempts are made and the directory is gone whenever
one of them succeeds.  (For a manifest missing one of the two keys the
source returns before the `try`, leaking the directory — see the
counterexample.) -/
theorem run_tha_test_cleanup (m : Manifest) (env : RunEnv) (p : Platform)
    (hf : m.hasFiles = true) (hc : m.hasCommand = true) :
    1 ≤ (run_tha_test m env p).rmAttempts ∧
    (p.win = false → (run_tha_test m env p).scratchExists = false ∧
      (run_tha_test m env p).rmAttempts = 1) ∧
    (p.win = true → (run_tha_test m env p).rmAttempts ≤ 3 ∧
      (p.rmFailures < 3 → (run_tha_test m env p).scratchExists = false)) := by
  have hs : (run_tha_test m env p).scratchExists = !(rmtree p).1 := by
    simp [run_tha_test, hf, hc]
  have ha : (run_tha_test m env p).rmAttempts = (rmtree p).2 := by
    simp [run_tha_test, hf, hc]
  rw [hs, ha]
  cases hw : p.win
  · refine ⟨by simp [rmtree, hw], fun _ => ⟨by simp [rmtree, hw], by simp [rmtree, hw]⟩, ?_⟩
    intro hcontra
    exact absurd hcontra (by simp)
  · by_cases hr : p.rmFailures < 3
    · refine ⟨by simp [rmtree, hw, hr], ?_, ?_⟩
      · intro hcontra
        exact absurd hcontra (by simp)
      · intro _
        exact ⟨by simp [rmtree, hw, hr]; omega, fun _ => by simp [rmtree, hw, hr]⟩
    · refine ⟨by simp [rmtree, hw, hr], ?_, ?_⟩
      · intro hcontra
        exact absurd hcontra (by simp)
      · intro _
        exact ⟨by simp [rmtree, hw, hr], fun hcc => absurd hcc hr⟩

/-- C3 counterexample: with a manifest lacking the `files` key the run
aborts before spawning (returns 1), yet the scratch directory — created at
line 365, before the key checks — still exists after `run_tha_test`
returns, because the early `return` of line 369 never enters the
`try`/`finally` of lines 374-412. -/
theorem run_tha_test_missing_files_leaks_scratch :
    (run_tha_test { hasFiles := false, hasCommand := true }
        { materializeOk := true, spawn := SpawnOutcome.exits 0 }
        { win := false, rmFailures := 0 }).scratchExists = true ∧
    (run_tha_test { hasFiles := false, hasCommand := true }
        { materializeOk := true, spawn := SpawnOutcome.exits 0 }
        { win := false, rmFailures := 0 }).spawned = false ∧
    (run_tha_test { hasFiles := false, hasCommand := true }
        { materializeOk := true, spawn := SpawnOutcome.exits 0 }
        { win := false, rmFailures := 0 }).result = Except.ok 1 :=
  ⟨rfl, rfl, rfl⟩

/-- C4 (amended): when materializing a Regular file entry, `run_tha_test`
calls `link_file` with the `HARDLINK` action (line 385): the blob is
placed by trying a hardlink and, when the hardlink raises `OSError`
(e.g. a different filesystem), falling back to a byte copy.  A symlink is
never attempted for a Regular entry. -/
theorem materialize_link_hardlink_else_copy (fs : FS) (outfile infile : String)
    (win hardlinkOk : Bool)
    (hin : (FS.lookup fs infile).isSome = true)
    (hout : (FS.lookup fs outfile).isSome = false) :
    (materialize_file fs outfile infile win hardlinkOk).err = none ∧
    (materialize_file fs outfile infile win hardlinkOk).method =
      some (if hardlinkOk then LinkMethod.hardlinked else LinkMethod.copied) := by
  obtain ⟨sz, hsz⟩ := Option.isSome_iff_exists.mp hin
  have hout2 : FS.lookup fs outfile = none := by
    cases hl : FS.lookup fs outfile with
    | none => rfl
    | some v => rw [hl] at hout; simp at hout
  simp only [materialize_file, materializeAction, link_file, hsz, hout2]
  cases hardlinkOk <;> simp

/-- C4 counterexample: in a state where the source blob exists, the
destination is free, and a hardlink fails (different filesystem) while a
symlink would succeed, the code performs a byte copy — the `HARDLINK`
action of `link_file` falls back directly to `shutil.copy` (lines 62-70)
and never tries a symlink, contradicting the claimed
hardlink-symlink-copy chain (stated in `specLinkChain`). -/
theorem link_file_no_symlink_fallback :
    (link_file { files := [("blob", 5)], capacity := 10,
                 stateData := StateData.absent }
        "scratch_file" "blob" LinkAction.hardlink false false).method =
      some LinkMethod.copied ∧
    specLinkChain false true = LinkMethod.symlinked ∧
    LinkMethod.copied ≠ LinkMethod.symlinked :=
  ⟨rfl, rfl, by decide⟩

/-- C5: `link_file` raises `MappingError` exactly when the source file is
not a regular file or the destination already exists as one (checks at
lines 50-55, made before any write); in either error case the filesystem —
in particular the destination path — is unchanged. -/
theorem link_file_mapping_error_iff (fs : FS) (outfile infile : String)
    (action : LinkAction) (win hardlinkOk : Bool) :
    ((link_file fs outfile infile action win hardlinkOk).err.isSome = true ↔
      ((FS.lookup fs infile).isNone = true ∨
        (FS.lookup fs outfile).isSome = true)) ∧
    ((link_file fs outfile infile action win hardlinkOk).err.isSome = true →
      (link_file fs outfile infile action win hardlinkOk).fs = fs) := by
  by_cases h1 : (FS.lookup fs infile).isNone = true
  · constructor
    · simp [link_file, h1]
    · intro _
      simp [link_file, h1]
  · by_cases h2 : (FS.lookup fs outfile).isSome = true
    · constructor
      · simp [link_file, h1, h2]
      · intro _
        simp [link_file, h1, h2]
    · have herr : (link_file fs outfile infile action win hardlinkOk).err = none := by
        simp only [link_file]
        rw [if_neg h1, if_neg h2]
        cases action <;> cases win <;> cases hardlinkOk <;> simp
      rw [herr]
      constructor
      · simp only [Option.isSome_none]
        constructor
        · intro hcontra
          exact absurd hcontra (by simp)
        · intro hcontra
          rcases hcontra with hcontra | hcontra
          · exact absurd hcontra h1
          · exact absurd hcontra h2
      · intro hcontra
        exact absurd hcontra (by simp)

/-- C6: opening the `Cache` when the state file exists but holds
malformed or unreadable JSON does not raise: the `IOError`/`ValueError`
is caught and logged (lines 219-222), the loaded state degrades to the
empty list, construction completes (the initial `trim` returns normally),
and the state file ends up rewritten with the repaired state. -/
theorem cache_init_corrupt_state_recovers (cache_dir remote : String)
    (max_cache_size min_free_space max_items : Nat) (fs : FS)
    (h : fs.stateData = StateData.corrupt) :
    loadState fs.stateData = [] ∧
    ∃ (c' : Cache) (fs' : FS),
      cacheInit cache_dir remote max_cache_size min_free_space max_items fs =
        some (c', fs') ∧
      fs'.stateData = StateData.good c'.state := by
  constructor
  · simp [h, loadState]
  · have hsome : (cacheInit cache_dir remote max_cache_size min_free_space
        max_items fs).isSome := by
      show (trim _ fs).isSome
      exact trim_some_of_nil _ fs (by simp [h, loadState])
    obtain ⟨⟨c', fs'⟩, heq⟩ := Option.isSome_iff_exists.mp hsome
    refine ⟨c', fs', heq, ?_⟩
    exact trim_stateData _ fs c' fs' heq

/-- C7: the `--no-run` option is added to the parser at line 420 with help
text promising to skip the run, but `options.no_run` is never read:
`main` passes only the manifest and cache settings to `run_tha_test`,
which always spawns the command once materialization succeeds — for both
values of the flag the command is executed. -/
theorem no_run_flag_does_not_skip_run : ∀ noRun : Bool,
    (mainRun { noRun := noRun } { hasFiles := true, hasCommand := true }
        { materializeOk := true, spawn := SpawnOutcome.exits 0 }
        { win := false, rmFailures := 0 }).spawned = true := by
  intro noRun
  rfl

/-! Concrete inputs for the witnesses. -/

/-- A small populated cache: three resident blobs in LRU order. -/
def cacheW : Cache :=
  { cache_dir := "cache", remote := "remote", max_cache_size := 10,
    min_free_space := 0, max_items := 2, state := ["a", "b", "c"] }

/-- The matching cache directory: the three blobs and the state file. -/
def fsW : FS :=
  { files := [("a", 4), ("b", 4), ("c", 4), ("state.json", 1)],
    capacity := 100, stateData := StateData.good ["a", "b", "c"] }

/-- Result cache of `trim cacheW fsW`: the LRU blob is evicted to meet the
10-byte size budget. -/
def cacheWResult : Cache := { cacheW with state := ["b", "c"] }

/-- Result directory of `trim cacheW fsW`. -/
def fsWResult : FS :=
  { files := [("b", 4), ("c", 4), ("state.json", 1)], capacity := 100,
    stateData := StateData.good ["b", "c"] }

/-- A directory holding one blob, for the link witnesses. -/
def fsLinkW : FS :=
  { files := [("blob", 5)], capacity := 10, stateData := StateData.absent }

/-- A directory whose state file is unreadable JSON, plus one orphan. -/
def fsCorruptW : FS :=
  { files := [("orphan", 7)], capacity := 50, stateData := StateData.corrupt }

/-- A manifest with both required keys. -/
def manifestW : Manifest := { hasFiles := true, hasCommand := true }

/-- A run whose spawn raises `OSError`. -/
def envW : RunEnv := { materializeOk := true, spawn := SpawnOutcome.raisesOSError }

/-- A win32 host whose first removal attempt fails. -/
def platW : Platform := { win := true, rmFailures := 1 }

/-! Witnesses. -/

theorem retrieve_hit_moves_to_mru_witness :
    ('/' ∉ "b".data ∧ "b" ∈ cacheW.state) ∧
    (∃ out : RetOut, retrieve cacheW fsW "b" none = Except.ok out ∧
      out.ret = false ∧ out.fetched = false ∧
      out.cache.state = cacheW.state.erase "b" ++ ["b"] ∧
      out.fs = FS.save fsW (cacheW.state.erase "b" ++ ["b"]) ∧
      out.cache.state.getLast? = some "b" ∧
      ∀ (fs2 : FS) (fetch2 : Option Nat), ∃ out2 : RetOut,
        retrieve out.cache fs2 "b" fetch2 = Except.ok out2 ∧
        out2.ret = false ∧ out2.fetched = false ∧
        out2.cache.state.getLast? = some "b") :=
  ⟨⟨by decide, by decide⟩,
    retrieve_hit_moves_to_mru cacheW fsW "b" none (by decide) (by decide)⟩

theorem trim_enforces_budgets_witness :
    trim cacheW fsW = some (cacheWResult, fsWResult) ∧
    ((cacheW.max_items ≠ 0 → cacheWResult.state.length ≤ cacheW.max_items) ∧
     (cacheW.max_cache_size ≠ 0 →
        sumSizes fsWResult cacheWResult.state ≤ cacheW.max_cache_size) ∧
     cacheWResult.state <:+
       absorb (cacheW.state.filter (fun f => (FS.lookup fsW f).isSome))
         (FS.listdir fsW)) :=
  ⟨by decide, trim_enforces_budgets cacheW fsW cacheWResult fsWResult (by decide)⟩

theorem run_tha_test_cleanup_witness :
    (manifestW.hasFiles = true ∧ manifestW.hasCommand = true) ∧
    (1 ≤ (run_tha_test manifestW envW platW).rmAttempts ∧
     (platW.win = false → (run_tha_test manifestW envW platW).scratchExists = false ∧
       (run_tha_test manifestW envW platW).rmAttempts = 1) ∧
     (platW.win = true → (run_tha_test manifestW envW platW).rmAttempts ≤ 3 ∧
       (platW.rmFailures < 3 →
         (run_tha_test manifestW envW platW).scratchExists = false))) :=
  ⟨⟨rfl, rfl⟩, run_tha_test_cleanup manifestW envW platW rfl rfl⟩

theorem materialize_link_hardlink_else_copy_witness :
    ((FS.lookup fsLinkW "blob").isSome = true ∧
     (FS.lookup fsLinkW "scratch_file").isSome = false) ∧
    ((materialize_file fsLinkW "scratch_file" "blob" false true).err = none ∧
     (materialize_file fsLinkW "scratch_file" "blob" false true).method =
       some (if true then LinkMethod.hardlinked else LinkMethod.copied)) :=
  ⟨⟨by decide, by decide⟩,
    materialize_link_hardlink_else_copy fsLinkW "scratch_file" "blob" false true
      (by decide) (by decide)⟩

theorem link_file_mapping_error_iff_witness :
    ((link_file fsLinkW "scratch_file" "missing" LinkAction.copy false
        true).err.isSome = true ↔
      ((FS.lookup fsLinkW "missing").isNone = true ∨
        (FS.lookup fsLinkW "scratch_file").isSome = true)) ∧
    ((link_file fsLinkW "scratch_file" "missing" LinkAction.copy false
        true).err.isSome = true →
      (link_file fsLinkW "scratch_file" "missing" LinkAction.copy false
        true).fs = fsLinkW) :=
  link_file_mapping_error_iff fsLinkW "scratch_file" "missing" LinkAction.copy
    false true

theorem cache_init_corrupt_state_recovers_witness :
    fsCorruptW.stateData = StateData.corrupt ∧
    (loadState fsCorruptW.stateData = [] ∧
     ∃ (c' : Cache) (fs' : FS),
       cacheInit "cache" "remote" 0 0 0 fsCorruptW = some (c', fs') ∧
       fs'.stateData = StateData.good c'.state) :=
  ⟨rfl, cache_init_corrupt_state_recovers "cache" "remote" 0 0 0 fsCorruptW rfl⟩

theorem no_run_flag_does_not_skip_run_witness :
    (mainRun { noRun := true } { hasFiles := true, hasCommand := true }
        { materializeOk := true, spawn := SpawnOutcome.exits 0 }
        { win := false, rmFailures := 0 }).spawned = true :=
  no_run_flag_does_not_skip_run true

theorem cache_ops_preserve_nodup_witness :
    cacheW.state.Nodup ∧
    ((∀ (item : String) (fetch : Option Nat) (out : RetOut),
        retrieve cacheW fsW item fetch = Except.ok out → out.cache.state.Nodup) ∧
     (∀ (c' : Cache) (fs' : FS), trim cacheW fsW = some (c', fs') →
        c'.state.Nodup)) :=
  ⟨by decide, cache_ops_preserve_nodup cacheW fsW (by decide)⟩

theorem retrieve_asserts_no_slash_witness :
    (retrieve cacheW fsW "a/b" none = Except.error PyErr.assertionError) ↔
      '/' ∈ "a/b".data :=
  retrieve_asserts_no_slash cacheW fsW "a/b" none

theorem statefile_never_resident_witness :
    STATE_FILE ∉ cacheW.state ∧
    ((∀ (c' : Cache) (fs' : FS), trim cacheW fsW = some (c', fs') →
        STATE_FILE ∉ c'.state) ∧
     (∀ (item : String) (fetch : Option Nat) (out : RetOut),
        item ≠ STATE_FILE → retrieve cacheW fsW item fetch = Except.ok out →
        STATE_FILE ∉ out.cache.state)) :=
  ⟨by decide, statefile_never_resident cacheW fsW (by decide)⟩

end RunTestFromArchive
